import Mathlib

set_option maxHeartbeats 1000000

namespace Netorcai

/-- Game phase, embedding the source constants GAME_NOT_RUNNING, GAME_RUNNING,
GAME_FINISHED (control.go lines 13-17). -/
inductive GamePhase where
  | notRunning
  | running
  | finished
deriving DecidableEq, Repr

/-- Client state, embedding the source constants CLIENT_UNLOGGED, CLIENT_LOGGED,
CLIENT_READY, CLIENT_THINKING, CLIENT_KICKED (control.go lines 20-26). -/
inductive ClientState where
  | unlogged
  | logged
  | ready
  | thinking
  | kicked
deriving DecidableEq, Repr

/-- The part of the source GlobalState structure (control.go lines 28-44) that the
login dispatcher reads and writes.  Registered clients are identified by numbers. -/
structure GlobalState where
  GameState : GamePhase
  GameLogic : List Nat
  Players : List Nat
  Visus : List Nat
  NbPlayersMax : Nat
  NbVisusMax : Nat
deriving DecidableEq, Repr

/-- Observable events of the login dispatcher handleClient (control.go lines 46-180):
mutex operations, sendLoginACK attempts (with their success), registry appends and
KICK emissions. -/
inductive LEv where
  | lock
  | unlock
  | sendLoginAck (ok : Bool)
  | appendPlayer
  | appendVisu
  | appendGameLogic
  | kick (reason : String)
deriving DecidableEq, Repr

/-- The role "player" branch of handleClient (control.go lines 79-114).
The boolean sendOk tells whether the sendLoginACK socket write succeeds. -/
def loginPlayer (s : GlobalState) (c : Nat) (sendOk : Bool) :
    GlobalState × List LEv :=
  if s.GameState ≠ GamePhase.notRunning then
    (s, [LEv.lock, LEv.unlock, LEv.kick "LOGIN denied: Game has been started"])
  else if s.Players.length ≥ s.NbPlayersMax then
    (s, [LEv.lock, LEv.unlock,
      LEv.kick "LOGIN denied: Maximum number of players reached"])
  else if sendOk = false then
    (s, [LEv.lock, LEv.sendLoginAck false, LEv.unlock,
      LEv.kick "LOGIN denied: Could not send LOGIN_ACK"])
  else
    ({ s with Players := s.Players ++ [c] },
      [LEv.lock, LEv.sendLoginAck true, LEv.appendPlayer, LEv.unlock])

/-- The role "visualization" branch of handleClient (control.go lines 115-147).
Note that this branch never inspects the game phase. -/
def loginVisu (s : GlobalState) (c : Nat) (sendOk : Bool) :
    GlobalState × List LEv :=
  if s.Visus.length ≥ s.NbVisusMax then
    (s, [LEv.lock, LEv.unlock,
      LEv.kick "LOGIN denied: Maximum number of visus reached"])
  else if sendOk = false then
    (s, [LEv.lock, LEv.sendLoginAck false, LEv.unlock,
      LEv.kick "LOGIN denied: Could not send LOGIN_ACK"])
  else
    ({ s with Visus := s.Visus ++ [c] },
      [LEv.lock, LEv.sendLoginAck true, LEv.appendVisu, LEv.unlock])

/-- The role "game logic" branch of handleClient (control.go lines 148-178). -/
def loginGameLogic (s : GlobalState) (c : Nat) (sendOk : Bool) :
    GlobalState × List LEv :=
  if s.GameState ≠ GamePhase.notRunning then
    (s, [LEv.lock, LEv.unlock, LEv.kick "LOGIN denied: Game has been started"])
  else if s.GameLogic.length ≥ 1 then
    (s, [LEv.lock, LEv.unlock,
      LEv.kick "LOGIN denied: A game logic is already logged in"])
  else if sendOk = false then
    (s, [LEv.lock, LEv.sendLoginAck false, LEv.unlock,
      LEv.kick "LOGIN denied: Could not send LOGIN_ACK"])
  else
    ({ s with GameLogic := s.GameLogic ++ [c] },
      [LEv.lock, LEv.sendLoginAck true, LEv.appendGameLogic, LEv.unlock])

/-- Modelled from the spec: the external control collaborator's start signal is not
under src/ (only the start channel it feeds appears there).  Per the spec the game
phase transitions NOT_RUNNING to RUNNING on Game Logic start. -/
def startGameStep (s : GlobalState) : GlobalState :=
  { s with GameState := GamePhase.running }

/-- Modelled from the spec: the code that records the end of the game is not under
src/.  Per the spec the game phase transitions to FINISHED on the final DO_TURN_ACK
or on a fatal Game Logic error. -/
def finishGameStep (s : GlobalState) : GlobalState :=
  { s with GameState := GamePhase.finished }

/-- Initial global state: the zero value of the Go struct has game phase
GAME_NOT_RUNNING (= 0) and empty client registries. -/
def initState (nbPlayersMax nbVisusMax : Nat) : GlobalState :=
  { GameState := GamePhase.notRunning, GameLogic := [], Players := [], Visus := [],
    NbPlayersMax := nbPlayersMax, NbVisusMax := nbVisusMax }

/-- One step of the global-state machine: any handleClient login outcome, the Game
Logic registry clearing of control_gl.go line 53, and the two spec-modelled game
phase transitions. -/
inductive GStep : GlobalState → GlobalState → Prop where
  | loginPlayer (s : GlobalState) (c : Nat) (sendOk : Bool) :
      GStep s (loginPlayer s c sendOk).1
  | loginVisu (s : GlobalState) (c : Nat) (sendOk : Bool) :
      GStep s (loginVisu s c sendOk).1
  | loginGameLogic (s : GlobalState) (c : Nat) (sendOk : Bool) :
      GStep s (loginGameLogic s c sendOk).1
  | glPreStartMessage (s : GlobalState) :
      GStep s { s with GameLogic := [] }
  | startGame (s : GlobalState) (hgl : s.GameLogic ≠ [])
      (hphase : s.GameState = GamePhase.notRunning) :
      GStep s (startGameStep s)
  | finishGame (s : GlobalState) (hphase : s.GameState = GamePhase.running) :
      GStep s (finishGameStep s)

/-- A global state is reachable when a sequence of steps produces it from the
initial state with the given configuration. -/
def Reachable (nbPlayersMax nbVisusMax : Nat) (s : GlobalState) : Prop :=
  Relation.ReflTransGen GStep (initState nbPlayersMax nbVisusMax) s

/-- A player action as carried inside DO_TURN, embedding the source structure
MessageDoTurnPlayerAction; the opaque JSON action payload is kept as a string. -/
structure MessageDoTurnPlayerAction where
  PlayerID : Int
  TurnNumber : Int
  Actions : String
deriving DecidableEq, Repr

/-- Index of the first entry of playerActions with the given player id, embedding
the linear search of the action-collection loop (control_gl.go lines 187-195). -/
def findActionIdx (pa : List MessageDoTurnPlayerAction) (pid : Int) : Option Nat :=
  match pa with
  | [] => none
  | act :: rest =>
    if act.PlayerID = pid then some 0
    else (findActionIdx rest pid).map (· + 1)

/-- The action-collection step of the turn coordinator (control_gl.go lines
181-200): if an entry with the same player id exists, swap it with the last
position, overwrite the last position with the new action; otherwise append. -/
def collectAction (pa : List MessageDoTurnPlayerAction)
    (action : MessageDoTurnPlayerAction) : List MessageDoTurnPlayerAction :=
  match findActionIdx pa action.PlayerID with
  | some i =>
    let lastIdx := pa.length - 1
    let swapped := (pa.set lastIdx (pa.getD i action)).set i (pa.getD lastIdx action)
    swapped.set lastIdx action
  | none => pa ++ [action]

/-- A registered player or visualization client as the coordinator sees it
(playerID is -1 before assignment). -/
structure PlayerOrVisuClient where
  playerID : Int
  nickname : String
  remoteAddress : String
deriving DecidableEq, Repr

/-- Player information record, embedding the source PlayerInformation. -/
structure PlayerInformation where
  PlayerID : Int
  Nickname : String
  RemoteAddress : String
  IsConnected : Bool
deriving DecidableEq, Repr

/-- Ascending player-id order on player information records, the comparison used
by the sort.Slice call of control_gl.go lines 82-84. -/
def piLE (a b : PlayerInformation) : Prop := a.PlayerID ≤ b.PlayerID

instance : DecidableRel piLE :=
  fun a b => inferInstanceAs (Decidable (a.PlayerID ≤ b.PlayerID))

instance : IsTotal PlayerInformation piLE :=
  ⟨fun a b => Int.le_total a.PlayerID b.PlayerID⟩

instance : IsTrans PlayerInformation piLE :=
  ⟨fun _ _ _ hab hbc => le_trans hab hbc⟩

/-- The part of the global state that the start-of-game step of the coordinator
touches (control_gl.go lines 60-89). -/
structure CoordState where
  GameState : GamePhase
  Players : List PlayerOrVisuClient
  NbTurnsMax : Nat
deriving DecidableEq, Repr

/-- Start-of-game step of handleGameLogic (control_gl.go lines 60-89): snapshot
initialNbPlayers, assign the random permutation perm as player ids, build the
player information array and sort it by ascending player id.  The random
permutation produced by rand.Perm is passed in as a parameter.  Returns the
updated state, the sorted information array and the snapshot. -/
def handleGameLogicStart (s : CoordState) (perm : List Nat) :
    CoordState × List PlayerInformation × Nat :=
  let initialNbPlayers := s.Players.length
  let updated := List.zipWith
    (fun (p : PlayerOrVisuClient) (pid : Nat) => { p with playerID := (pid : Int) })
    s.Players perm
  let playersInfo := updated.map (fun p =>
    { PlayerID := p.playerID, Nickname := p.nickname,
      RemoteAddress := p.remoteAddress, IsConnected := true })
  ({ s with Players := updated },
    List.insertionSort piLE playersInfo, initialNbPlayers)

/-- A TURN message as fanned out to players and visus (control_gl.go lines
245-260); the opaque game state is kept as a string. -/
structure MessageTurn where
  TurnNumber : Nat
  GameState : String
  PlayersInfo : List PlayerInformation
deriving DecidableEq, Repr

/-- A GAME_ENDS message as fanned out to players and visus (control_gl.go lines
295-308). -/
structure MessageGameEnds where
  WinnerPlayerID : Int
  GameState : String
deriving DecidableEq, Repr

/-- Events on the Game Logic side of the coordinator: messages sent to the Game
Logic client, fan-outs to players and visus, and the exit-code signal. -/
inductive GLEv where
  | doInit (nbPlayers nbTurnsMax : Nat)
  | gameStartsFan
  | doTurn (actions : List MessageDoTurnPlayerAction)
  | turnFan (turnNumber : Nat)
  | gameEndsFan (winner : Int)
  | kickGL (reason : String)
  | exitSignal (code : Nat)
deriving DecidableEq, Repr

/-- Recognizer for DO_TURN events. -/
def isDoTurn : GLEv → Bool
  | GLEv.doTurn _ => true
  | _ => false

/-- Processing of one valid DO_TURN_ACK (control_gl.go lines 241-316): increment
the turn counter; below nbTurnsMax fan out TURN with turn number one less than the
new counter and continue, otherwise fan out GAME_ENDS, kick the Game Logic with
reason Game is finished and signal exit code 0.  Returns the emitted events and
the new counter when the loop continues. -/
def handleDoTurnAck (nbTurnsMax turnNumber : Nat) (winner : Int) :
    List GLEv × Option Nat :=
  let newTurn := turnNumber + 1
  if newTurn < nbTurnsMax then
    ([GLEv.turnFan (newTurn - 1)], some newTurn)
  else
    ([GLEv.gameEndsFan winner, GLEv.kickGL "Game is finished",
      GLEv.exitSignal 0], none)

/-- The turn loop of handleGameLogic for a Game Logic that acknowledges every
DO_TURN (control_gl.go lines 172-319), unfolded along the acknowledgements: each
DO_TURN_ACK is processed by handleDoTurnAck and, while the game continues, the
deferred send signal delivers the next DO_TURN (with the empty action list, as no
player action interleaves on this path). -/
def glLoop (nbTurnsMax : Nat) (winner : Int) : Nat → Nat → List GLEv
  | 0, _ => []
  | fuel + 1, turnNumber =>
    match handleDoTurnAck nbTurnsMax turnNumber winner with
    | (evs, some t) => evs ++ GLEv.doTurn [] :: glLoop nbTurnsMax winner fuel t
    | (evs, none) => evs

/-- The full happy-path event trace for a Game Logic client that starts the game
and acknowledges every message: DO_INIT (control_gl.go line 87), the GAME_STARTS
fan-out (lines 129-155), the first DO_TURN (line 170), then the turn loop. -/
def glTrace (nbTurnsMax nbPlayers : Nat) (winner : Int) : List GLEv :=
  GLEv.doInit nbPlayers nbTurnsMax :: GLEv.gameStartsFan ::
    GLEv.doTurn [] :: glLoop nbTurnsMax winner nbTurnsMax 0

/-- Realization of a turnFan event (control_gl.go lines 244-260): every player
receives TURN with empty players_info, every visu receives TURN with the full
sorted players_info list. -/
def fanTurn (players visus : List Nat) (turnNumber : Nat) (gs : String)
    (playersInfo : List PlayerInformation) : List (Nat × MessageTurn) :=
  players.map (fun p =>
      (p, { TurnNumber := turnNumber, GameState := gs, PlayersInfo := [] }))
    ++ visus.map (fun v =>
      (v, { TurnNumber := turnNumber, GameState := gs, PlayersInfo := playersInfo }))

/-- Realization of a gameEndsFan event (control_gl.go lines 294-309): every player
and every visu receives GAME_ENDS. -/
def fanGameEnds (players visus : List Nat) (winner : Int) (gs : String) :
    List (Nat × MessageGameEnds) :=
  players.map (fun p => (p, { WinnerPlayerID := winner, GameState := gs }))
    ++ visus.map (fun v => (v, { WinnerPlayerID := winner, GameState := gs }))

/-- The event that ends the wait for DO_INIT_ACK (control_gl.go lines 99-117):
shutdown, an incoming message (with a read error or its raw content), or the
3-second timer. -/
inductive InitAckEvent where
  | canTerminate
  | incoming (err : Option String) (content : String)
  | timeout
deriving DecidableEq, Repr

/-- Outcome of the DO_INIT_ACK wait: return immediately, kick the Game Logic then
signal the exit code and enter the drain loop, or proceed to the GAME_STARTS
fan-out with the parsed initial game state. -/
inductive InitOutcome where
  | returnNow
  | kickExitDrain (reason : String) (code : Nat)
  | proceedToGameStarts (initialGameState : String)
deriving DecidableEq, Repr

/-- The timeout constant of the DO_INIT_ACK wait (control_gl.go line 112). -/
def doInitAckTimeoutSeconds : Nat := 3

/-- The DO_INIT_ACK wait and parse of handleGameLogic (control_gl.go lines
99-126).  The parser readDoInitAckMessage lives in a source file that is not under
src/, so it is passed in as a parameter. -/
def awaitDoInitAck (readDoInitAckMessage : String → Except String String) :
    InitAckEvent → InitOutcome
  | InitAckEvent.canTerminate => InitOutcome.returnNow
  | InitAckEvent.timeout =>
      InitOutcome.kickExitDrain "Did not receive DO_INIT_ACK after 3 seconds." 1
  | InitAckEvent.incoming (some e) _ =>
      InitOutcome.kickExitDrain ("Cannot read DO_INIT_ACK. " ++ e) 1
  | InitAckEvent.incoming none content =>
      match readDoInitAckMessage content with
      | Except.error e =>
          InitOutcome.kickExitDrain ("Invalid DO_INIT_ACK message. " ++ e) 1
      | Except.ok gs => InitOutcome.proceedToGameStarts gs

/-- A connected client as the Kick function sees it (state and nickname). -/
structure Client where
  state : ClientState
  nickname : String
deriving DecidableEq, Repr

/-- Observable events of the Kick function: the state write, the best-effort KICK
message emission, and the 500 ms sleep. -/
inductive KickEv where
  | setStateKicked
  | emitKick (reason : String)
  | sleepMs (ms : Nat)
deriving DecidableEq, Repr

/-- The Kick function (control.go lines 182-204): return immediately when the
client is already kicked; otherwise set the state to KICKED first, then emit the
KICK message and sleep 500 ms.  The json.Marshal of the KICK message cannot fail
on a plain string pair, so the emission is unconditional. -/
def Kick (c : Client) (reason : String) : Client × List KickEv :=
  if c.state = ClientState.kicked then (c, [])
  else ({ c with state := ClientState.kicked },
    [KickEv.setStateKicked, KickEv.emitKick reason, KickEv.sleepMs 500])

/-- The channel fields of the source GameLogicClient (control_gl.go lines 12-19).
A channel that was never created with make is the Go zero value nil, modelled as
none. -/
structure GameLogicClient where
  playerAction : Option Unit
  start : Option Unit
  playerDisconnected : Option Unit
deriving DecidableEq, Repr

/-- The GameLogicClient literal built at LOGIN (control.go lines 161-165): only
the playerAction and start channels are created; playerDisconnected is left at
its zero value nil. -/
def mkGameLogicClient : GameLogicClient :=
  { playerAction := some (), start := some (), playerDisconnected := none }

/-- The branches of the coordinator's select loop (control_gl.go lines 172-318). -/
inductive GLBranch where
  | canTerminate
  | sendDoTurnToGL
  | playerAction
  | playerDisconnected
  | incomingMessage
deriving DecidableEq, Repr

/-- Whether a select branch can ever become ready for the given client: per Go
semantics, a receive case on a nil channel never becomes ready. -/
def branchReady (gl : GameLogicClient) : GLBranch → Bool
  | GLBranch.playerAction => gl.playerAction.isSome
  | GLBranch.playerDisconnected => gl.playerDisconnected.isSome
  | _ => true

/-- Whether the pattern occurs at the very front of the character list. -/
def subAt : List Char → List Char → Bool
  | [], _ => true
  | _ :: _, [] => false
  | p :: ps, c :: cs => p == c && subAt ps cs

/-- Whether the pattern occurs anywhere in the character list. -/
def hasSub (pat : List Char) : List Char → Bool
  | [] => pat.isEmpty
  | c :: cs => subAt pat (c :: cs) || hasSub pat cs

/-- The string sub occurs as a contiguous substring of s. -/
def strContainsSub (s sub : String) : Prop :=
  ∃ pre post : List Char, s.data = pre ++ sub.data ++ post

/-- Concrete action of player 0 used in examples. -/
def cexAct0 : MessageDoTurnPlayerAction :=
  { PlayerID := 0, TurnNumber := 0, Actions := "a0" }

/-- Concrete action of player 1 used in examples. -/
def cexAct1 : MessageDoTurnPlayerAction :=
  { PlayerID := 1, TurnNumber := 0, Actions := "a1" }

/-- Concrete action of player 2 used in examples. -/
def cexAct2 : MessageDoTurnPlayerAction :=
  { PlayerID := 2, TurnNumber := 0, Actions := "a2" }

/-- Concrete second action of player 0 used in examples. -/
def cexAct0new : MessageDoTurnPlayerAction :=
  { PlayerID := 0, TurnNumber := 1, Actions := "a0bis" }

/-- Concrete coordinator state with one registered player and the game phase still
NOT_RUNNING. -/
def cexCoordState : CoordState :=
  { GameState := GamePhase.notRunning,
    Players := [{ playerID := -1, nickname := "p1", remoteAddress := "addr1" }],
    NbTurnsMax := 2 }

/-- Global state reached after one game logic LOGIN from the initial state with
capacity two players and two visus. -/
def glState1 : GlobalState := (loginGameLogic (initState 2 2) 0 true).1

/-- Global state reached after the game logic LOGIN and the start signal. -/
def glState2 : GlobalState := startGameStep glState1

/-- Global state with one visu slot free reached after a game logic LOGIN, the
start signal and the end of the game; its phase is FINISHED. -/
def visuState3 : GlobalState :=
  finishGameStep (startGameStep (loginGameLogic (initState 2 1) 0 true).1)

/-- Concrete parser used to exercise awaitDoInitAck. -/
def cexParse : String → Except String String :=
  fun c => if c = "ok" then Except.ok "state0" else Except.error "bad schema"

/-- Concrete coordinator state with two registered players awaiting their ids. -/
def cexPlayersState : CoordState :=
  { GameState := GamePhase.notRunning,
    Players := [{ playerID := -1, nickname := "p1", remoteAddress := "a1" },
                { playerID := -1, nickname := "p2", remoteAddress := "a2" }],
    NbTurnsMax := 3 }

theorem subAt_self_append (pat rest : List Char) : subAt pat (pat ++ rest) = true := by
  induction pat with
  | nil => rfl
  | cons p ps ih => simp [subAt, ih]

theorem hasSub_of_decomposition (pat pre post : List Char) :
    hasSub pat (pre ++ pat ++ post) = true := by
  induction pre with
  | nil =>
    cases pat with
    | nil => cases post <;> simp [hasSub, subAt]
    | cons p ps => simp [hasSub, subAt, subAt_self_append]
  | cons c cs ih =>
    have ih' : hasSub pat (cs ++ (pat ++ post)) = true := by
      simpa [List.append_assoc] using ih
    simp [hasSub, ih']

theorem strContainsSub_hasSub {s sub : String} (h : strContainsSub s sub) :
    hasSub sub.data s.data = true := by
  obtain ⟨pre, post, hp⟩ := h
  rw [hp]
  exact hasSub_of_decomposition _ _ _

/-- C9: Kick is idempotent.  On a client already in KICKED it returns at once with
no state change and no emitted event; on the first call the state write comes
before the KICK emission in the event list, so any later Kick call with any reason
is a no-op. -/
theorem Kick_idempotent (c : Client) (reason reason2 : String) :
    (c.state = ClientState.kicked → Kick c reason = (c, []))
    ∧ (c.state ≠ ClientState.kicked →
        (Kick c reason).1 = { c with state := ClientState.kicked }
        ∧ (Kick c reason).2 =
          [KickEv.setStateKicked, KickEv.emitKick reason, KickEv.sleepMs 500])
    ∧ Kick (Kick c reason).1 reason2 = ((Kick c reason).1, []) := by
  by_cases h : c.state = ClientState.kicked <;> simp [Kick, h]

theorem Kick_idempotent_witness :
    (Kick { state := ClientState.logged, nickname := "n" } "r").1
      = { state := ClientState.kicked, nickname := "n" }
    ∧ Kick (Kick { state := ClientState.logged, nickname := "n" } "r").1 "r2"
      = ((Kick { state := ClientState.logged, nickname := "n" } "r").1, []) :=
  ⟨((Kick_idempotent { state := ClientState.logged, nickname := "n" } "r" "r2").2.1
      (by decide)).1,
   (Kick_idempotent { state := ClientState.logged, nickname := "n" } "r" "r2").2.2⟩

/-- C10: the GameLogicClient built at LOGIN creates only the playerAction and
start channels and leaves playerDisconnected nil, so the select branch on
playerDisconnected (and with it the fast-mode completion re-check on disconnect)
can never fire for a game logic client registered through handleClient. -/
theorem playerDisconnected_unreachable :
    mkGameLogicClient.playerAction = some ()
    ∧ mkGameLogicClient.start = some ()
    ∧ mkGameLogicClient.playerDisconnected = none
    ∧ branchReady mkGameLogicClient GLBranch.playerDisconnected = false
    ∧ ∀ fired : List GLBranch,
        (∀ b ∈ fired, branchReady mkGameLogicClient b = true) →
        GLBranch.playerDisconnected ∉ fired := by
  refine ⟨rfl, rfl, rfl, rfl, ?_⟩
  intro fired hall hmem
  have hb := hall _ hmem
  simp [branchReady, mkGameLogicClient] at hb

theorem playerDisconnected_unreachable_witness :
    GLBranch.playerDisconnected ∉
      [GLBranch.playerAction, GLBranch.incomingMessage, GLBranch.canTerminate] :=
  playerDisconnected_unreachable.2.2.2.2 _ (by decide)

/-- C8: after DO_INIT the coordinator waits for DO_INIT_ACK with a 3-second
timeout; on timeout (with the exact reason string), on a read error, or on a
schema-invalid DO_INIT_ACK it kicks the Game Logic, signals exit code 1 and enters
the drain loop, never proceeding to the GAME_STARTS fan-out. -/
theorem awaitDoInitAck_spec (parse : String → Except String String) :
    doInitAckTimeoutSeconds = 3
    ∧ awaitDoInitAck parse InitAckEvent.timeout =
        InitOutcome.kickExitDrain "Did not receive DO_INIT_ACK after 3 seconds." 1
    ∧ (∀ e content, awaitDoInitAck parse (InitAckEvent.incoming (some e) content) =
        InitOutcome.kickExitDrain ("Cannot read DO_INIT_ACK. " ++ e) 1)
    ∧ (∀ content e, parse content = Except.error e →
        awaitDoInitAck parse (InitAckEvent.incoming none content) =
          InitOutcome.kickExitDrain ("Invalid DO_INIT_ACK message. " ++ e) 1)
    ∧ (∀ content gs, parse content = Except.ok gs →
        awaitDoInitAck parse (InitAckEvent.incoming none content) =
          InitOutcome.proceedToGameStarts gs)
    ∧ ∀ reason code gsx,
        InitOutcome.kickExitDrain reason code ≠ InitOutcome.proceedToGameStarts gsx := by
  refine ⟨rfl, rfl, fun e content => rfl, ?_, ?_, ?_⟩
  · intro content e h
    simp [awaitDoInitAck, h]
  · intro content gs h
    simp [awaitDoInitAck, h]
  · intro reason code gsx
    simp

theorem awaitDoInitAck_spec_witness :
    awaitDoInitAck cexParse InitAckEvent.timeout =
      InitOutcome.kickExitDrain "Did not receive DO_INIT_ACK after 3 seconds." 1
    ∧ awaitDoInitAck cexParse (InitAckEvent.incoming none "nope") =
      InitOutcome.kickExitDrain ("Invalid DO_INIT_ACK message. " ++ "bad schema") 1
    ∧ awaitDoInitAck cexParse (InitAckEvent.incoming none "ok") =
      InitOutcome.proceedToGameStarts "state0" :=
  ⟨(awaitDoInitAck_spec cexParse).2.1,
   (awaitDoInitAck_spec cexParse).2.2.2.1 "nope" "bad schema" rfl,
   (awaitDoInitAck_spec cexParse).2.2.2.2.1 "ok" "state0" rfl⟩

/-- C5: a player LOGIN is kicked with reason LOGIN denied: Game has been started
when the phase is not NOT_RUNNING, kicked with reason LOGIN denied: Maximum number
of players reached when the cap is hit, kicked with LOGIN denied: Could not send
LOGIN_ACK and not appended when the LOGIN_ACK send fails, and otherwise LOGIN_ACK
is sent between the lock and unlock events and the client is appended. -/
theorem loginPlayer_spec (s : GlobalState) (c : Nat) (sendOk : Bool) :
    (s.GameState ≠ GamePhase.notRunning →
      loginPlayer s c sendOk =
        (s, [LEv.lock, LEv.unlock, LEv.kick "LOGIN denied: Game has been started"]))
    ∧ (s.GameState = GamePhase.notRunning → s.NbPlayersMax ≤ s.Players.length →
      loginPlayer s c sendOk =
        (s, [LEv.lock, LEv.unlock,
          LEv.kick "LOGIN denied: Maximum number of players reached"]))
    ∧ (s.GameState = GamePhase.notRunning → s.Players.length < s.NbPlayersMax →
      sendOk = false →
      loginPlayer s c sendOk =
        (s, [LEv.lock, LEv.sendLoginAck false, LEv.unlock,
          LEv.kick "LOGIN denied: Could not send LOGIN_ACK"]))
    ∧ (s.GameState = GamePhase.notRunning → s.Players.length < s.NbPlayersMax →
      sendOk = true →
      loginPlayer s c sendOk =
        ({ s with Players := s.Players ++ [c] },
          [LEv.lock, LEv.sendLoginAck true, LEv.appendPlayer, LEv.unlock])) := by
  refine ⟨?_, ?_, ?_, ?_⟩
  · intro h
    simp [loginPlayer, h]
  · intro h1 h2
    simp [loginPlayer, h1, h2]
  · intro h1 h2 h3
    have h2' : ¬ s.Players.length ≥ s.NbPlayersMax := by omega
    simp [loginPlayer, h1, h2', h3]
  · intro h1 h2 h3
    have h2' : ¬ s.Players.length ≥ s.NbPlayersMax := by omega
    simp [loginPlayer, h1, h2', h3]

theorem loginPlayer_spec_witness :
    loginPlayer (initState 2 2) 5 true =
      ({ initState 2 2 with Players := [5] },
        [LEv.lock, LEv.sendLoginAck true, LEv.appendPlayer, LEv.unlock])
    ∧ loginPlayer glState2 5 true =
      (glState2, [LEv.lock, LEv.unlock, LEv.kick "LOGIN denied: Game has been started"]) :=
  ⟨(loginPlayer_spec (initState 2 2) 5 true).2.2.2 (by decide) (by decide) rfl,
   (loginPlayer_spec glState2 5 true).1 (by decide)⟩

/-- C7 (amended): a visualization LOGIN is decided only by the visu cap (and the
LOGIN_ACK send), independently of the game phase: it is kicked with LOGIN denied:
Maximum number of visus reached at the cap and registered otherwise, whatever the
phase is. -/
theorem loginVisu_spec (s : GlobalState) (c : Nat) (sendOk : Bool) :
    (s.NbVisusMax ≤ s.Visus.length →
      loginVisu s c sendOk =
        (s, [LEv.lock, LEv.unlock,
          LEv.kick "LOGIN denied: Maximum number of visus reached"]))
    ∧ (s.Visus.length < s.NbVisusMax → sendOk = true →
      loginVisu s c sendOk =
        ({ s with Visus := s.Visus ++ [c] },
          [LEv.lock, LEv.sendLoginAck true, LEv.appendVisu, LEv.unlock]))
    ∧ (s.Visus.length < s.NbVisusMax → sendOk = false →
      loginVisu s c sendOk =
        (s, [LEv.lock, LEv.sendLoginAck false, LEv.unlock,
          LEv.kick "LOGIN denied: Could not send LOGIN_ACK"])) := by
  refine ⟨?_, ?_, ?_⟩
  · intro h
    simp [loginVisu, h]
  · intro h1 h2
    have h1' : ¬ s.Visus.length ≥ s.NbVisusMax := by omega
    simp [loginVisu, h1', h2]
  · intro h1 h2
    have h1' : ¬ s.Visus.length ≥ s.NbVisusMax := by omega
    simp [loginVisu, h1', h2]

theorem loginVisu_spec_witness :
    loginVisu visuState3 7 true =
      ({ visuState3 with Visus := [7] },
        [LEv.lock, LEv.sendLoginAck true, LEv.appendVisu, LEv.unlock])
    ∧ loginVisu (initState 2 0) 7 true =
      (initState 2 0, [LEv.lock, LEv.unlock,
        LEv.kick "LOGIN denied: Maximum number of visus reached"]) :=
  ⟨(loginVisu_spec visuState3 7 true).2.1 (by decide) rfl,
   (loginVisu_spec (initState 2 0) 7 true).1 (by decide)⟩

/-- C7 counterexample: the state visuState3 is reachable, its phase is FINISHED,
and a visualization LOGIN arriving there is still accepted and registered, so the
claim that no new Visu is registered once the phase reaches FINISHED is false. -/
theorem loginVisu_after_finished_cex :
    Reachable 2 1 visuState3
    ∧ visuState3.GameState = GamePhase.finished
    ∧ (loginVisu visuState3 7 true).1.Visus = [7]
    ∧ (loginVisu visuState3 7 true).2 =
        [LEv.lock, LEv.sendLoginAck true, LEv.appendVisu, LEv.unlock] := by
  refine ⟨?_, by decide, by decide, by decide⟩
  have s1 : GStep (initState 2 1) (loginGameLogic (initState 2 1) 0 true).1 :=
    GStep.loginGameLogic _ 0 true
  have s2 : GStep (loginGameLogic (initState 2 1) 0 true).1
      (startGameStep (loginGameLogic (initState 2 1) 0 true).1) :=
    GStep.startGame _ (by decide) (by decide)
  have s3 : GStep (startGameStep (loginGameLogic (initState 2 1) 0 true).1)
      visuState3 :=
    GStep.finishGame _ (by decide)
  exact Relation.ReflTransGen.head s1
    (Relation.ReflTransGen.head s2 (Relation.ReflTransGen.single s3))

theorem loginPlayer_GameLogic (s : GlobalState) (c : Nat) (ok : Bool) :
    (loginPlayer s c ok).1.GameLogic = s.GameLogic := by
  unfold loginPlayer
  split_ifs <;> rfl

theorem loginVisu_GameLogic (s : GlobalState) (c : Nat) (ok : Bool) :
    (loginVisu s c ok).1.GameLogic = s.GameLogic := by
  unfold loginVisu
  split_ifs <;> rfl

theorem loginGameLogic_length_le (s : GlobalState) (c : Nat) (ok : Bool)
    (h : s.GameLogic.length ≤ 1) :
    (loginGameLogic s c ok).1.GameLogic.length ≤ 1 := by
  unfold loginGameLogic
  split_ifs with h1 h2 h3
  · exact h
  · exact h
  · exact h
  · simp only [ge_iff_le, not_le, Nat.lt_one_iff] at h2
    simp [h2]

/-- C6 (amended): every reachable global state registers at most one Game Logic
client; a further game logic LOGIN while one is registered never changes the state
and is kicked with reason LOGIN denied: A game logic is already logged in when the
game has not been started, and with reason LOGIN denied: Game has been started
otherwise. -/
theorem gameLogic_unique (p v : Nat) (s : GlobalState) (h : Reachable p v s) :
    s.GameLogic.length ≤ 1
    ∧ ∀ c sendOk, s.GameLogic ≠ [] →
        (loginGameLogic s c sendOk).1 = s
        ∧ (s.GameState = GamePhase.notRunning →
            (loginGameLogic s c sendOk).2 =
              [LEv.lock, LEv.unlock,
                LEv.kick "LOGIN denied: A game logic is already logged in"]
            ∧ strContainsSub "LOGIN denied: A game logic is already logged in"
                "A game logic is already logged in")
        ∧ (s.GameState ≠ GamePhase.notRunning →
            (loginGameLogic s c sendOk).2 =
              [LEv.lock, LEv.unlock, LEv.kick "LOGIN denied: Game has been started"]) := by
  constructor
  · induction h with
    | refl => simp [initState]
    | tail hsteps hstep ih =>
      cases hstep with
      | loginPlayer c ok => simpa [loginPlayer_GameLogic] using ih
      | loginVisu c ok => simpa [loginVisu_GameLogic] using ih
      | loginGameLogic c ok => exact loginGameLogic_length_le _ c ok ih
      | glPreStartMessage => simp
      | startGame hgl hphase => simpa [startGameStep] using ih
      | finishGame hphase => simpa [finishGameStep] using ih
  · intro c sendOk hne
    have hlen : 1 ≤ s.GameLogic.length := by
      cases hgl : s.GameLogic with
      | nil => exact absurd hgl hne
      | cons a l => simp [hgl]
    by_cases hphase : s.GameState = GamePhase.notRunning
    · refine ⟨?_, fun _ => ⟨?_, ?_⟩, fun hcon => absurd hphase hcon⟩
      · simp [loginGameLogic, hphase, hlen]
      · simp [loginGameLogic, hphase, hlen]
      · exact ⟨"LOGIN denied: ".data, [], by decide⟩
    · refine ⟨?_, fun hcon => absurd hcon hphase, fun _ => ?_⟩
      · simp [loginGameLogic, hphase]
      · simp [loginGameLogic, hphase]

theorem gameLogic_unique_witness :
    glState1.GameLogic.length ≤ 1
    ∧ (loginGameLogic glState1 1 true).1 = glState1
    ∧ (loginGameLogic glState1 1 true).2 =
        [LEv.lock, LEv.unlock,
          LEv.kick "LOGIN denied: A game logic is already logged in"] := by
  have h := gameLogic_unique 2 2 glState1
    (Relation.ReflTransGen.single (GStep.loginGameLogic (initState 2 2) 0 true))
  exact ⟨h.1, (h.2 1 true (by decide)).1, ((h.2 1 true (by decide)).2.1 (by decide)).1⟩

/-- C6 counterexample: at the reachable state glState2 a Game Logic is registered
but the game has been started, and a second game logic LOGIN is kicked with a
reason that does not contain the text A game logic is already logged in, so the
claim's unconditional reason is false. -/
theorem gameLogic_dup_reason_cex :
    Reachable 2 2 glState2
    ∧ glState2.GameLogic ≠ []
    ∧ (loginGameLogic glState2 1 true).2 =
        [LEv.lock, LEv.unlock, LEv.kick "LOGIN denied: Game has been started"]
    ∧ ¬ strContainsSub "LOGIN denied: Game has been started"
        "A game logic is already logged in" := by
  refine ⟨?_, by decide, by decide, ?_⟩
  · have s1 : GStep (initState 2 2) glState1 := GStep.loginGameLogic _ 0 true
    have s2 : GStep glState1 glState2 := GStep.startGame _ (by decide) (by decide)
    exact Relation.ReflTransGen.head s1 (Relation.ReflTransGen.single s2)
  · intro h
    exact absurd (strContainsSub_hasSub h) (by decide)

/-- C2 (amended): the game phase starts at NOT_RUNNING; the coordinator's player
ID assignment step leaves the phase unchanged, the NOT_RUNNING to RUNNING
transition being performed by the external start collaborator (modelled from the
spec as the startGame step); and every player LOGIN arriving while the phase is
not NOT_RUNNING is rejected with reason LOGIN denied: Game has been started, which
contains the text Game has been started. -/
theorem gamePhase_transitions :
    (∀ p v, (initState p v).GameState = GamePhase.notRunning)
    ∧ (∀ (s : CoordState) (perm : List Nat),
        (handleGameLogicStart s perm).1.GameState = s.GameState)
    ∧ (∀ s : GlobalState, s.GameLogic ≠ [] → s.GameState = GamePhase.notRunning →
        GStep s (startGameStep s) ∧ (startGameStep s).GameState = GamePhase.running)
    ∧ (∀ (s : GlobalState) (c : Nat) (sendOk : Bool),
        s.GameState ≠ GamePhase.notRunning →
        loginPlayer s c sendOk =
          (s, [LEv.lock, LEv.unlock, LEv.kick "LOGIN denied: Game has been started"]))
    ∧ strContainsSub "LOGIN denied: Game has been started" "Game has been started" := by
  refine ⟨fun p v => rfl, fun s perm => rfl, ?_, ?_, ?_⟩
  · intro s hgl hphase
    exact ⟨GStep.startGame s hgl hphase, rfl⟩
  · intro s c sendOk h
    simp [loginPlayer, h]
  · exact ⟨"LOGIN denied: ".data, [], by decide⟩

theorem gamePhase_transitions_witness :
    (initState 2 2).GameState = GamePhase.notRunning
    ∧ (startGameStep glState1).GameState = GamePhase.running
    ∧ loginPlayer glState2 3 true =
        (glState2, [LEv.lock, LEv.unlock,
          LEv.kick "LOGIN denied: Game has been started"]) :=
  ⟨gamePhase_transitions.1 2 2,
   (gamePhase_transitions.2.2.1 glState1 (by decide) (by decide)).2,
   gamePhase_transitions.2.2.2.1 glState2 3 true (by decide)⟩

/-- C2 counterexample: on a concrete NOT_RUNNING state the player ID assignment
step of the coordinator leaves the game phase at NOT_RUNNING, so this step does
not set the phase to RUNNING as the claim states. -/
theorem handleGameLogicStart_phase_cex :
    (handleGameLogicStart cexCoordState [0]).1.GameState = GamePhase.notRunning
    ∧ GamePhase.notRunning ≠ GamePhase.running :=
  ⟨rfl, by decide⟩

theorem glLoop_countP (max : Nat) (winner : Int) :
    ∀ fuel t, t < max → max - t ≤ fuel →
      (glLoop max winner fuel t).countP isDoTurn = max - t - 1 := by
  intro fuel
  induction fuel with
  | zero => intro t ht hf; omega
  | succ n ih =>
    intro t ht hf
    by_cases hc : t + 1 < max
    · have hstep : glLoop max winner (n + 1) t =
          GLEv.turnFan (t + 1 - 1) :: GLEv.doTurn [] :: glLoop max winner n (t + 1) := by
        simp [glLoop, handleDoTurnAck, hc]
      rw [hstep]
      simp only [List.countP_cons, isDoTurn]
      rw [ih (t + 1) hc (by omega)]
      simp
      omega
    · simp [glLoop, handleDoTurnAck, hc, List.countP_cons, isDoTurn]
      omega

theorem glLoop_suffix (max : Nat) (winner : Int) :
    ∀ fuel t, t < max → max - t ≤ fuel →
      ∃ pre, glLoop max winner fuel t =
        pre ++ [GLEv.gameEndsFan winner, GLEv.kickGL "Game is finished",
          GLEv.exitSignal 0] := by
  intro fuel
  induction fuel with
  | zero => intro t ht hf; omega
  | succ n ih =>
    intro t ht hf
    by_cases hc : t + 1 < max
    · obtain ⟨pre, hpre⟩ := ih (t + 1) hc (by omega)
      refine ⟨GLEv.turnFan (t + 1 - 1) :: GLEv.doTurn [] :: pre, ?_⟩
      simp [glLoop, handleDoTurnAck, hc, hpre]
    · refine ⟨[], ?_⟩
      simp [glLoop, handleDoTurnAck, hc]

/-- C3: for a Game Logic client that starts the game and acknowledges every
message, the trace holds DO_INIT first and exactly nbTurnsMax DO_TURN events, and
ends with the GAME_ENDS fan-out, the kick with reason Game is finished and the
exit-code-0 signal; the k-th DO_TURN_ACK with k below nbTurnsMax produces the TURN
fan-out with turn number k - 1, delivered to every player (with empty players
info) and every visu (with the full list), and the last acknowledgement produces
the GAME_ENDS fan-out delivered to every player and visu. -/
theorem glHappyPath (nbTurnsMax nbPlayers : Nat) (winner : Int)
    (players visus : List Nat) (gs : String) (pinfos : List PlayerInformation)
    (h1 : 1 ≤ nbTurnsMax) :
    (glTrace nbTurnsMax nbPlayers winner).countP isDoTurn = nbTurnsMax
    ∧ (glTrace nbTurnsMax nbPlayers winner).head? =
        some (GLEv.doInit nbPlayers nbTurnsMax)
    ∧ (∃ pre, glTrace nbTurnsMax nbPlayers winner =
        pre ++ [GLEv.gameEndsFan winner, GLEv.kickGL "Game is finished",
          GLEv.exitSignal 0])
    ∧ (∀ k, 0 < k → k < nbTurnsMax →
        handleDoTurnAck nbTurnsMax (k - 1) winner = ([GLEv.turnFan (k - 1)], some k))
    ∧ handleDoTurnAck nbTurnsMax (nbTurnsMax - 1) winner =
        ([GLEv.gameEndsFan winner, GLEv.kickGL "Game is finished",
          GLEv.exitSignal 0], none)
    ∧ (∀ t p, p ∈ players →
        (p, ({ TurnNumber := t, GameState := gs, PlayersInfo := [] } : MessageTurn))
          ∈ fanTurn players visus t gs pinfos)
    ∧ (∀ t v, v ∈ visus →
        (v, ({ TurnNumber := t, GameState := gs, PlayersInfo := pinfos } : MessageTurn))
          ∈ fanTurn players visus t gs pinfos)
    ∧ (∀ p, p ∈ players →
        (p, ({ WinnerPlayerID := winner, GameState := gs } : MessageGameEnds))
          ∈ fanGameEnds players visus winner gs)
    ∧ (∀ v, v ∈ visus →
        (v, ({ WinnerPlayerID := winner, GameState := gs } : MessageGameEnds))
          ∈ fanGameEnds players visus winner gs) := by
  refine ⟨?_, rfl, ?_, ?_, ?_, ?_, ?_, ?_, ?_⟩
  · have hc := glLoop_countP nbTurnsMax winner nbTurnsMax 0 (by omega) (by omega)
    simp [glTrace, List.countP_cons, isDoTurn, hc]
    omega
  · obtain ⟨pre, hpre⟩ := glLoop_suffix nbTurnsMax winner nbTurnsMax 0 (by omega) (by omega)
    exact ⟨GLEv.doInit nbPlayers nbTurnsMax :: GLEv.gameStartsFan ::
      GLEv.doTurn [] :: pre, by simp [glTrace, hpre]⟩
  · intro k hk0 hkmax
    have hk : k - 1 + 1 = k := by omega
    simp [handleDoTurnAck, hk, hkmax]
  · have hk : nbTurnsMax - 1 + 1 = nbTurnsMax := by omega
    simp [handleDoTurnAck, hk]
  · intro t p hp
    exact List.mem_append_left _ (List.mem_map_of_mem _ hp)
  · intro t v hv
    exact List.mem_append_right _ (List.mem_map_of_mem _ hv)
  · intro p hp
    exact List.mem_append_left _ (List.mem_map_of_mem _ hp)
  · intro v hv
    exact List.mem_append_right _ (List.mem_map_of_mem _ hv)

theorem glHappyPath_witness :
    (glTrace 2 1 0).countP isDoTurn = 2
    ∧ handleDoTurnAck 2 0 0 = ([GLEv.turnFan 0], some 1)
    ∧ handleDoTurnAck 2 1 0 =
        ([GLEv.gameEndsFan 0, GLEv.kickGL "Game is finished",
          GLEv.exitSignal 0], none)
    ∧ (10, ({ TurnNumber := 0, GameState := "g", PlayersInfo := [] } : MessageTurn))
        ∈ fanTurn [10] [20] 0 "g" [] := by
  have h := glHappyPath 2 1 0 [10] [20] "g" [] (by decide)
  exact ⟨h.1, h.2.2.2.1 1 (by decide) (by decide), h.2.2.2.2.1,
    h.2.2.2.2.2.1 0 10 (by decide)⟩

theorem zipWith_playerID (l : List PlayerOrVisuClient) (perm : List Nat)
    (h : l.length = perm.length) :
    (List.zipWith (fun (p : PlayerOrVisuClient) (pid : Nat) =>
        { p with playerID := (pid : Int) }) l perm).map (·.playerID)
      = perm.map Int.ofNat := by
  induction l generalizing perm with
  | nil =>
    cases perm with
    | nil => rfl
    | cons q qs => simp at h
  | cons p ps ih =>
    cases perm with
    | nil => simp at h
    | cons q qs =>
      simp only [List.zipWith_cons_cons, List.map_cons]
      exact congrArg₂ List.cons rfl (ih qs (by simpa using h))

/-- C4: the start-of-game step snapshots initialNbPlayers as the number of
registered players, assigns player ids that form a permutation of the range
below initialNbPlayers, and builds a players information array of exactly
initialNbPlayers records sorted in ascending player id order (its ids also
being a permutation of that range). -/
theorem handleGameLogicStart_spec (s : CoordState) (perm : List Nat)
    (hp : perm.Perm (List.range s.Players.length)) :
    (handleGameLogicStart s perm).2.2 = s.Players.length
    ∧ ((handleGameLogicStart s perm).1.Players.map (·.playerID)).Perm
        ((List.range s.Players.length).map Int.ofNat)
    ∧ (handleGameLogicStart s perm).2.1.length = s.Players.length
    ∧ List.Sorted piLE (handleGameLogicStart s perm).2.1
    ∧ ((handleGameLogicStart s perm).2.1.map (·.PlayerID)).Perm
        ((List.range s.Players.length).map Int.ofNat) := by
  have hlen : s.Players.length = perm.length := by
    simpa using hp.length_eq.symm
  refine ⟨rfl, ?_, ?_, ?_, ?_⟩
  · simp only [handleGameLogicStart]
    rw [zipWith_playerID _ _ hlen]
    exact hp.map Int.ofNat
  · simp only [handleGameLogicStart]
    rw [(List.perm_insertionSort piLE _).length_eq]
    simp [List.length_zipWith]
    omega
  · simp only [handleGameLogicStart]
    exact List.sorted_insertionSort piLE _
  · simp only [handleGameLogicStart]
    refine ((List.perm_insertionSort piLE _).map _).trans ?_
    rw [List.map_map]
    have hcomp : ((List.zipWith (fun (p : PlayerOrVisuClient) (pid : Nat) =>
        { p with playerID := (pid : Int) }) s.Players perm).map
          ((fun pi : PlayerInformation => pi.PlayerID) ∘ (fun p =>
            { PlayerID := p.playerID, Nickname := p.nickname,
              RemoteAddress := p.remoteAddress, IsConnected := true })))
        = perm.map Int.ofNat := zipWith_playerID _ _ hlen
    exact hcomp ▸ hp.map Int.ofNat

theorem handleGameLogicStart_spec_witness :
    (handleGameLogicStart cexPlayersState [1, 0]).2.2 = 2
    ∧ List.Sorted piLE (handleGameLogicStart cexPlayersState [1, 0]).2.1
    ∧ ((handleGameLogicStart cexPlayersState [1, 0]).1.Players.map (·.playerID)).Perm
        ((List.range 2).map Int.ofNat) := by
  have h := handleGameLogicStart_spec cexPlayersState [1, 0]
    ((List.Perm.swap 0 1 []).trans (by rfl))
  exact ⟨h.1, h.2.2.2.1, h.2.1⟩

theorem set_append_len {α : Type _} (T rest : List α) (k : Nat) (y : α) :
    (T ++ rest).set (T.length + k) y = T ++ rest.set k y := by
  induction T with
  | nil => simp
  | cons h t ih =>
    have harith : (h :: t).length + k = (t.length + k) + 1 := by
      simp only [List.length_cons]
      omega
    rw [List.cons_append, harith, List.set_cons_succ, ih, List.cons_append]

theorem getD_append_len {α : Type _} (T rest : List α) (k : Nat) (d : α) :
    (T ++ rest).getD (T.length + k) d = rest.getD k d := by
  induction T with
  | nil => simp
  | cons h t ih =>
    have harith : (h :: t).length + k = (t.length + k) + 1 := by
      simp only [List.length_cons]
      omega
    rw [List.cons_append, harith, List.getD_cons_succ, ih]

theorem set_append_self {α : Type _} (T rest : List α) (y : α) :
    (T ++ rest).set T.length y = T ++ rest.set 0 y := by
  have h := set_append_len T rest 0 y
  rwa [Nat.add_zero] at h

theorem getD_append_self {α : Type _} (T rest : List α) (d : α) :
    (T ++ rest).getD T.length d = rest.getD 0 d := by
  have h := getD_append_len T rest 0 d
  simpa using h

theorem set_append_at_len {α : Type _} (M : List α) (z y : α) :
    (M ++ [z]).set M.length y = M ++ [y] := by
  rw [set_append_self]
  rfl

theorem getD_append_at_len {α : Type _} (M : List α) (z d : α) :
    (M ++ [z]).getD M.length d = z := by
  rw [getD_append_self]
  rfl

theorem findActionIdx_none_iff (pa : List MessageDoTurnPlayerAction) (pid : Int) :
    findActionIdx pa pid = none ↔ ∀ b ∈ pa, b.PlayerID ≠ pid := by
  induction pa with
  | nil => simp [findActionIdx]
  | cons act rest ih =>
    by_cases h : act.PlayerID = pid
    · simp [findActionIdx, h]
    · simp [findActionIdx, h, Option.map_eq_none', ih]

theorem findActionIdx_some_decomp (pa : List MessageDoTurnPlayerAction) (pid : Int) :
    ∀ i, findActionIdx pa pid = some i →
      ∃ T x E, pa = T ++ x :: E ∧ T.length = i ∧ x.PlayerID = pid
        ∧ ∀ b ∈ T, b.PlayerID ≠ pid := by
  induction pa with
  | nil => intro i h; simp [findActionIdx] at h
  | cons act rest ih =>
    intro i h
    by_cases hh : act.PlayerID = pid
    · refine ⟨[], act, rest, rfl, ?_, hh, by simp⟩
      simp [findActionIdx, hh] at h
      simpa using h
    · simp only [findActionIdx, if_neg hh] at h
      rcases ho : findActionIdx rest pid with _ | j
      · rw [ho] at h
        simp at h
      · rw [ho] at h
        simp at h
        obtain ⟨T, x, E, hpa, hTlen, hxx, hT⟩ := ih j ho
        refine ⟨act :: T, x, E, by simp [hpa], ?_, hxx, ?_⟩
        · simp only [List.length_cons, hTlen]
          omega
        · intro b hb
          rcases List.mem_cons.mp hb with rfl | hbT
          · exact hh
          · exact hT b hbT

theorem collectAction_not_found (pa : List MessageDoTurnPlayerAction)
    (a : MessageDoTurnPlayerAction) (h : findActionIdx pa a.PlayerID = none) :
    collectAction pa a = pa ++ [a] := by
  simp [collectAction, h]

theorem collectAction_found_eq (pa : List MessageDoTurnPlayerAction)
    (a : MessageDoTurnPlayerAction) (i : Nat)
    (h : findActionIdx pa a.PlayerID = some i) :
    collectAction pa a =
      ((pa.set (pa.length - 1) (pa.getD i a)).set i
        (pa.getD (pa.length - 1) a)).set (pa.length - 1) a := by
  simp [collectAction, h]

theorem collectAction_last_case (T : List MessageDoTurnPlayerAction)
    (x a : MessageDoTurnPlayerAction)
    (hfind : findActionIdx (T ++ [x]) a.PlayerID = some T.length) :
    collectAction (T ++ [x]) a = T ++ [a] := by
  rw [collectAction_found_eq _ _ _ hfind]
  have hlen : (T ++ [x]).length - 1 = T.length := by simp
  rw [hlen, getD_append_at_len]
  simp [set_append_at_len]

theorem collectAction_mid_case (T M : List MessageDoTurnPlayerAction)
    (x z a : MessageDoTurnPlayerAction)
    (hfind : findActionIdx (T ++ x :: (M ++ [z])) a.PlayerID = some T.length) :
    collectAction (T ++ x :: (M ++ [z])) a = T ++ z :: (M ++ [a]) := by
  rw [collectAction_found_eq _ _ _ hfind]
  have hlen : (T ++ x :: (M ++ [z])).length - 1 = T.length + (M.length + 1) := by
    simp only [List.length_append, List.length_cons, List.length_nil]
    omega
  rw [hlen]
  rw [getD_append_len T (x :: (M ++ [z])) (M.length + 1) a]
  rw [List.getD_cons_succ, getD_append_at_len]
  rw [getD_append_self T (x :: (M ++ [z])) a, List.getD_cons_zero]
  rw [set_append_len T (x :: (M ++ [z])) (M.length + 1) x]
  rw [List.set_cons_succ, set_append_at_len]
  rw [set_append_self T (x :: (M ++ [x])) z, List.set_cons_zero]
  rw [set_append_len T (z :: (M ++ [x])) (M.length + 1) a]
  rw [List.set_cons_succ, set_append_at_len]

theorem swap_outer_perm {α : Type _} (l₁ l₂ : List α) (u w : α) :
    List.Perm (l₁ ++ u :: (l₂ ++ [w])) (l₁ ++ w :: (l₂ ++ [u])) := by
  refine List.Perm.append_left l₁ ?_
  exact ((List.Perm.cons u (List.perm_append_singleton w l₂)).trans
    (List.Perm.swap w u l₂)).trans
    (List.Perm.cons w (List.perm_append_singleton u l₂).symm)

theorem collectAction_core (pa : List MessageDoTurnPlayerAction)
    (a : MessageDoTurnPlayerAction)
    (hnd : (pa.map (·.PlayerID)).Nodup) :
    ((collectAction pa a).map (·.PlayerID)).Nodup
    ∧ (collectAction pa a).filter (fun b => b.PlayerID == a.PlayerID) = [a]
    ∧ (collectAction pa a).getLast? = some a := by
  rcases hfind : findActionIdx pa a.PlayerID with _ | i
  · have hnone : ∀ b ∈ pa, b.PlayerID ≠ a.PlayerID :=
      (findActionIdx_none_iff pa a.PlayerID).mp hfind
    rw [collectAction_not_found pa a hfind]
    have hnotmem : a.PlayerID ∉ pa.map (·.PlayerID) := by
      simp only [List.mem_map, not_exists, not_and]
      intro b hb
      exact hnone b hb
    refine ⟨?_, ?_, by simp [List.getLast?_concat]⟩
    · have hmap : ((pa ++ [a]).map (·.PlayerID)) =
          pa.map (·.PlayerID) ++ [a.PlayerID] := by simp
      rw [hmap]
      refine hnd.append (List.nodup_singleton _) ?_
      intro ident hid hmem
      simp only [List.mem_singleton] at hmem
      subst hmem
      exact hnotmem hid
    · rw [List.filter_append]
      have h1 : pa.filter (fun b => b.PlayerID == a.PlayerID) = [] :=
        List.filter_eq_nil_iff.mpr (fun b hb => by simp [hnone b hb])
      simp [h1]
  · obtain ⟨T, x, E, hpa, hTlen, hx, hT⟩ :=
      findActionIdx_some_decomp pa a.PlayerID i hfind
    subst hpa
    rcases List.eq_nil_or_concat E with rfl | ⟨M, z, hE⟩
    · have hfind' : findActionIdx (T ++ [x]) a.PlayerID = some T.length := by
        rw [hTlen]
        exact hfind
      rw [collectAction_last_case T x a hfind']
      refine ⟨?_, ?_, by simp [List.getLast?_concat]⟩
      · have hmap2 : ((T ++ [a]).map (·.PlayerID)) =
            T.map (·.PlayerID) ++ [a.PlayerID] := by simp
        have hmap : ((T ++ [x]).map (·.PlayerID)) =
            T.map (·.PlayerID) ++ [x.PlayerID] := by simp
        rw [hmap2, ← hx]
        rw [hmap] at hnd
        exact hnd
      · rw [List.filter_append]
        have h1 : T.filter (fun b => b.PlayerID == a.PlayerID) = [] :=
          List.filter_eq_nil_iff.mpr (fun b hb => by simp [hT b hb])
        simp [h1]
    · rw [List.concat_eq_append] at hE
      subst hE
      have hfind' : findActionIdx (T ++ x :: (M ++ [z])) a.PlayerID =
          some T.length := by
        rw [hTlen]
        exact hfind
      rw [collectAction_mid_case T M x z a hfind']
      have hnd' : ((T.map (·.PlayerID)) ++
          x.PlayerID :: (M.map (·.PlayerID) ++ [z.PlayerID])).Nodup := by
        simpa using hnd
      have hndr : (x.PlayerID :: (M.map (·.PlayerID) ++ [z.PlayerID])).Nodup :=
        hnd'.of_append_right
      have hxnot : x.PlayerID ∉ M.map (·.PlayerID) ++ [z.PlayerID] :=
        (List.nodup_cons.mp hndr).1
      have hxM : ∀ b ∈ M, b.PlayerID ≠ x.PlayerID := by
        intro b hb he
        refine hxnot ?_
        rw [List.mem_append]
        exact Or.inl (List.mem_map.mpr ⟨b, hb, he⟩)
      have hxz : z.PlayerID ≠ x.PlayerID := by
        intro he
        refine hxnot ?_
        rw [List.mem_append]
        exact Or.inr (by simp [he])
      refine ⟨?_, ?_, ?_⟩
      · have hgoal : ((T ++ z :: (M ++ [a])).map (·.PlayerID)) =
            (T.map (·.PlayerID)) ++
              z.PlayerID :: (M.map (·.PlayerID) ++ [a.PlayerID]) := by simp
        rw [hgoal, ← hx]
        exact (swap_outer_perm (T.map (·.PlayerID)) (M.map (·.PlayerID))
          z.PlayerID x.PlayerID).nodup_iff.mpr hnd'
      · rw [List.filter_append]
        have h1 : T.filter (fun b => b.PlayerID == a.PlayerID) = [] :=
          List.filter_eq_nil_iff.mpr (fun b hb => by simp [hT b hb])
        have h2 : M.filter (fun b => b.PlayerID == a.PlayerID) = [] :=
          List.filter_eq_nil_iff.mpr (fun b hb => by
            simp only [beq_iff_eq]
            intro he
            exact hxM b hb (he.trans hx.symm))
        have hzq : ¬ (z.PlayerID = a.PlayerID) := fun he => hxz (he.trans hx.symm)
        simp [h1, h2, List.filter_cons, List.filter_append, hzq]
      · have hassoc : T ++ z :: (M ++ [a]) = (T ++ z :: M) ++ [a] := by simp
        rw [hassoc, List.getLast?_concat]

/-- C1 (amended): when a player action arrives, the earlier entry of that player
(if any) is removed by the swap-and-overwrite and the new action ends up at the
last position, so the most recent action of that player is the only one kept and
playerActions keeps at most one entry per player id; a player that sends two
TURN_ACKs before the next DO_TURN has only its latest action kept.  The swap
however moves the previously last entry into the vacated position, so the
relative chronological order among the entries of distinct players is not
preserved in general. -/
theorem collectAction_latest_wins (pa : List MessageDoTurnPlayerAction)
    (a : MessageDoTurnPlayerAction)
    (hnd : (pa.map (·.PlayerID)).Nodup) :
    ((collectAction pa a).map (·.PlayerID)).Nodup
    ∧ (collectAction pa a).filter (fun b => b.PlayerID == a.PlayerID) = [a]
    ∧ (collectAction pa a).getLast? = some a
    ∧ ∀ a' : MessageDoTurnPlayerAction, a'.PlayerID = a.PlayerID →
        ((collectAction (collectAction pa a') a).map (·.PlayerID)).Nodup
        ∧ (collectAction (collectAction pa a') a).filter
            (fun b => b.PlayerID == a.PlayerID) = [a] :=
  ⟨(collectAction_core pa a hnd).1,
   (collectAction_core pa a hnd).2.1,
   (collectAction_core pa a hnd).2.2,
   fun a' _ =>
    ⟨(collectAction_core (collectAction pa a') a
        (collectAction_core pa a' hnd).1).1,
     (collectAction_core (collectAction pa a') a
        (collectAction_core pa a' hnd).1).2.1⟩⟩

theorem collectAction_latest_wins_witness :
    (([cexAct1, cexAct2].map (·.PlayerID)).Nodup)
    ∧ (collectAction [cexAct1, cexAct2] cexAct0).filter
        (fun b => b.PlayerID == cexAct0.PlayerID) = [cexAct0]
    ∧ (collectAction (collectAction [cexAct1, cexAct2] cexAct0) cexAct0new).filter
        (fun b => b.PlayerID == cexAct0new.PlayerID) = [cexAct0new] :=
  ⟨by decide,
   (collectAction_latest_wins [cexAct1, cexAct2] cexAct0 (by decide)).2.1,
   ((collectAction_latest_wins [cexAct1, cexAct2] cexAct0new (by decide)).2.2.2
      cexAct0 (by decide)).2⟩

/-- C1 counterexample: with entries of players 0, 1, 2 collected in this
chronological order, a fresh action of player 0 produces the list with players in
order 2, 1, 0: the entry of player 1 preceded the entry of player 2 before, and
follows it afterwards, so the relative chronological order among the entries of
distinct players is not preserved. -/
theorem collectAction_order_cex :
    collectAction [cexAct0, cexAct1, cexAct2] cexAct0new =
      [cexAct2, cexAct1, cexAct0new]
    ∧ (([cexAct0, cexAct1, cexAct2].map (·.PlayerID)).indexOf 1 <
        ([cexAct0, cexAct1, cexAct2].map (·.PlayerID)).indexOf 2)
    ∧ ¬ (((collectAction [cexAct0, cexAct1, cexAct2] cexAct0new).map
          (·.PlayerID)).indexOf 1 <
        ((collectAction [cexAct0, cexAct1, cexAct2] cexAct0new).map
          (·.PlayerID)).indexOf 2) := by
  decide

end Netorcai
